import Mathlib

/-! Motion-triggered audio message player (`audio.c`).

A shallow embedding of the interrupt handlers and the SPI framing routine of
`MotionTriggeredAudioMessagePlayer/audio.c`, followed by the properties of the
playback state machine, the external-interrupt dispatcher and the 16-bit SPI
frame.

Conventions of the embedding.

* Machine integers are natural numbers (`play_audio`, an `int`, is an `Int`);
  a store into a fixed-width object reduces modulo `2 ^ width`.
* Every access to a memory-mapped register, every CSR operation and every call
  into the PLIC driver is recorded, in program order, as an `Event`.
* Values that the hardware produces (the free-running `mtime` counter, the SPI
  `TXFIFO` and `IP` registers, the source returned by the PLIC claim) are inputs
  of the handlers.  The SPI inputs of one call are the list of values that the
  successive volatile reads return.
* A handler returns `Except Fault _`: `Fault.hang` is a busy-wait that never
  leaves within the given bus responses, the other faults are undefined
  behaviour of the C program (array access out of bounds, call through a null
  function pointer).
-/

namespace Audio

/-- Constants that `audio.c` takes from the board support headers
(`platform.h`, `encoding.h`, `plic/plic_driver.h`); the headers are not part of
the sources, so the constants are parameters of the embedding. -/
structure Platform where
  PLIC_NUM_INTERRUPTS : Nat
  INT_DEVICE_BUTTON_0 : Nat
  GREEN_LED_OFFSET : Nat
  RED_LED_OFFSET : Nat
  BLUE_LED_OFFSET : Nat
  BUTTON_0_OFFSET : Nat
  MIP_MTIP : Nat
  MIP_MEIP : Nat
  MSTATUS_MIE : Nat
  RTC_FREQ : Nat
  SPI_CSMODE_AUTO : Nat
  SPI_CSMODE_HOLD : Nat
  SPI_TXFIFO_FULL : Nat
  SPI_IP_TXWM : Nat
  deriving DecidableEq, Repr

/-- Values of the constants on the HiFive1 (FE310) board, used for concrete
evaluations. -/
def hifive1 : Platform where
  PLIC_NUM_INTERRUPTS := 52
  INT_DEVICE_BUTTON_0 := 23
  GREEN_LED_OFFSET := 19
  RED_LED_OFFSET := 22
  BLUE_LED_OFFSET := 21
  BUTTON_0_OFFSET := 15
  MIP_MTIP := 128
  MIP_MEIP := 2048
  MSTATUS_MIE := 8
  RTC_FREQ := 32768
  SPI_CSMODE_AUTO := 0
  SPI_CSMODE_HOLD := 2
  SPI_TXFIFO_FULL := 2147483648
  SPI_IP_TXWM := 1

/-- Number of samples of the audio buffer: the macro `SAMPLES` of `wavefile.h`,
the declared length of the array `wave`. -/
def SAMPLES (wave : List Nat) : Nat := wave.length

/-- Entries of the table `g_ext_interrupt_handlers`: the two handlers of the
program, and the null pointer of the zero-initialised array. -/
inductive Handler where
  | null
  | no_interrupt_handler
  | button_0_handler
  deriving DecidableEq, Repr

/-- Memory-mapped registers accessed by the program. -/
inductive Reg where
  | GPIO_OUTPUT_VAL
  | GPIO_OUTPUT_EN
  | GPIO_INPUT_EN
  | GPIO_PULLUP_EN
  | GPIO_RISE_IE
  | GPIO_RISE_IP
  | CLINT_MTIME
  | CLINT_MTIMECMP
  | SPI_REG_CSMODE
  | SPI_REG_TXFIFO
  | SPI_REG_IP
  deriving DecidableEq, Repr

/-- Observable actions, in program order. -/
inductive Event where
  | read (r : Reg) (v : Nat)
  | write (r : Reg) (v : Nat)
  | clear_csr_mie (mask : Nat)
  | set_csr_mie (mask : Nat)
  | set_csr_mstatus (mask : Nat)
  | wave_read (i : Nat)
  | spi_tx16 (bytes : Nat)
  | PLIC_claim_interrupt (int_num : Nat)
  | PLIC_complete_interrupt (int_num : Nat)
  | PLIC_enable_interrupt (source : Nat)
  | PLIC_set_priority (source : Nat) (priority : Nat)
  | call (h : Handler)
  | exit (status : Nat)
  | print_banner
  deriving DecidableEq, Repr

/-- Ways in which a handler fails to return normally. -/
inductive Fault where
  | hang
  | wave_out_of_bounds (i : Nat)
  | null_call
  deriving DecidableEq, Repr

/-- How `handle_m_ext_interrupt` leaves: by returning, or through `exit`. -/
inductive Ctl where
  | returned
  | exited (status : Nat)
  deriving DecidableEq, Repr

/-- Program state: the globals `play_audio` and `g_ext_interrupt_handlers`, the
function-static `index` of the timer handler, and the registers that the
program reads back. -/
structure Machine where
  play_audio : Int
  index : Nat
  g_ext_interrupt_handlers : List Handler
  mie : Nat
  mstatus : Nat
  mtimecmp : Nat
  gpio_output_val : Nat
  gpio_output_en : Nat
  gpio_input_en : Nat
  gpio_pullup_en : Nat
  gpio_rise_ie : Nat
  deriving DecidableEq, Repr

/-- The 32-bit update `v &= ~mask`. -/
def bic32 (v mask : Nat) : Nat := v &&& ((2 ^ 32 - 1) ^^^ (mask % 2 ^ 32))

/-- The 32-bit update `v |= mask`. -/
def or32 (v mask : Nat) : Nat := (v ||| mask) % 2 ^ 32

/-- The loop `while(SPI1_REG(SPI_REG_TXFIFO) & SPI_TXFIFO_FULL);`: one read of
`TXFIFO` per iteration, leaving at the first value with the full flag clear. -/
def wait_txfifo_not_full (P : Platform) : List Nat → Except Fault (List Event × List Nat)
  | [] => .error .hang
  | v :: bus =>
    if v &&& P.SPI_TXFIFO_FULL ≠ 0 then
      match wait_txfifo_not_full P bus with
      | .ok (evs, rest) => .ok (Event.read .SPI_REG_TXFIFO v :: evs, rest)
      | .error e => .error e
    else
      .ok ([Event.read .SPI_REG_TXFIFO v], bus)

/-- The loop `while((SPI1_REG(SPI_REG_IP) & SPI_IP_TXWM) != SPI_IP_TXWM);`. -/
def wait_ip_txwm (P : Platform) : List Nat → Except Fault (List Event × List Nat)
  | [] => .error .hang
  | v :: bus =>
    if v &&& P.SPI_IP_TXWM ≠ P.SPI_IP_TXWM then
      match wait_ip_txwm P bus with
      | .ok (evs, rest) => .ok (Event.read .SPI_REG_IP v :: evs, rest)
      | .error e => .error e
    else
      .ok ([Event.read .SPI_REG_IP v], bus)

/-- Embedding of `spi_tx16(uint16_t bytes)`: the register accesses of the call
on the bus responses `bus`, and the responses left over. -/
def spi_tx16 (P : Platform) (bytes : Nat) (bus : List Nat) :
    Except Fault (List Event × List Nat) := do
  let t := [Event.write .SPI_REG_CSMODE P.SPI_CSMODE_HOLD]
  let (r, bus) ← wait_txfifo_not_full P bus
  let t := t ++ r ++ [Event.write .SPI_REG_TXFIFO ((bytes >>> 8) &&& 0xff)]
  let (r, bus) ← wait_txfifo_not_full P bus
  let t := t ++ r ++ [Event.write .SPI_REG_TXFIFO (bytes &&& 0xff)]
  let (r, bus) ← wait_ip_txwm P bus
  let t := t ++ r ++ [Event.write .SPI_REG_CSMODE P.SPI_CSMODE_AUTO]
  pure (t, bus)

/-- Embedding of `handle_m_time_interrupt`, one timer tick.  `now` is the value
read from `mtime`, `bus` the responses of the SPI registers during the tick. -/
def handle_m_time_interrupt (P : Platform) (wave : List Nat) (now : Nat) (bus : List Nat)
    (m : Machine) : Except Fault (Machine × List Event) := do
  -- clear_csr(mie, MIP_MTIP);
  let m := { m with mie := bic32 m.mie P.MIP_MTIP }
  let t := [Event.clear_csr_mie P.MIP_MTIP]
  -- uint64_t now = *mtime; uint64_t then = now + 3; *mtimecmp = then;
  let next := (now + 3) % 2 ^ 64
  let m := { m with mtimecmp := next }
  let t := t ++ [Event.read .CLINT_MTIME now, Event.write .CLINT_MTIMECMP next]
  let (m, t) ←
    if m.play_audio ≠ (0 : Int) then do
      -- GPIO_REG(GPIO_OUTPUT_VAL) &= ~(0x1 << GREEN_LED_OFFSET);
      let m := { m with gpio_output_val := bic32 m.gpio_output_val (1 <<< P.GREEN_LED_OFFSET) }
      let t := t ++ [Event.write .GPIO_OUTPUT_VAL m.gpio_output_val]
      -- if(index >= SAMPLES) { index = 0; play_audio = 0; }
      let m := if m.index ≥ SAMPLES wave then { m with index := 0, play_audio := 0 } else m
      -- w = wave[index++] & 0x0fff;
      match wave[m.index]? with
      | none => throw (Fault.wave_out_of_bounds m.index)
      | some sample =>
        let t := t ++ [Event.wave_read m.index]
        let w := (sample &&& 0x0fff) % 2 ^ 16
        let m := { m with index := (m.index + 1) % 2 ^ 32 }
        -- w |= (1<<14)|(1<<13)|(1<<12);
        let w := (w ||| ((1 <<< 14) ||| (1 <<< 13) ||| (1 <<< 12))) % 2 ^ 16
        -- spi_tx16(w);
        let (r, _) ← spi_tx16 P w bus
        let t := t ++ [Event.spi_tx16 w] ++ r
        -- GPIO_REG(GPIO_OUTPUT_VAL) |= (0x1 << GREEN_LED_OFFSET);
        let m := { m with gpio_output_val := or32 m.gpio_output_val (1 <<< P.GREEN_LED_OFFSET) }
        let t := t ++ [Event.write .GPIO_OUTPUT_VAL m.gpio_output_val]
        pure (m, t)
    else
      pure (m, t)
  -- set_csr(mie, MIP_MTIP);
  let m := { m with mie := or32 m.mie P.MIP_MTIP }
  pure (m, t ++ [Event.set_csr_mie P.MIP_MTIP])

/-- Embedding of `button_0_handler`. -/
def button_0_handler (P : Platform) (m : Machine) : Machine × List Event :=
  -- GPIO_REG(GPIO_OUTPUT_VAL) |= (0x1 << RED_LED_OFFSET);
  let m := { m with gpio_output_val := or32 m.gpio_output_val (1 <<< P.RED_LED_OFFSET) }
  let t := [Event.write .GPIO_OUTPUT_VAL m.gpio_output_val]
  -- play_audio = 1;
  let m := { m with play_audio := 1 }
  -- GPIO_REG(GPIO_RISE_IP) = (0x1 << BUTTON_0_OFFSET);
  (m, t ++ [Event.write .GPIO_RISE_IP ((1 <<< P.BUTTON_0_OFFSET) % 2 ^ 32)])

/-- Call through a function pointer of the handler table. -/
def call_handler (P : Platform) : Handler → Machine → Except Fault (Machine × List Event)
  | .null, _ => .error .null_call
  | .no_interrupt_handler, m => .ok (m, [])
  | .button_0_handler, m => .ok (button_0_handler P m)

/-- Embedding of `handle_m_ext_interrupt`.  `int_num` is the source returned by
`PLIC_claim_interrupt`. -/
def handle_m_ext_interrupt (P : Platform) (int_num : Nat) (m : Machine) :
    Except Fault (Ctl × Machine × List Event) := do
  let t := [Event.PLIC_claim_interrupt int_num]
  if int_num ≥ 1 ∧ int_num < P.PLIC_NUM_INTERRUPTS then
    let h := m.g_ext_interrupt_handlers.getD int_num Handler.null
    let (m, r) ← call_handler P h m
    let t := t ++ [Event.call h] ++ r
    pure (Ctl.returned, m, t ++ [Event.PLIC_complete_interrupt int_num])
  else
    let status := (1 + int_num) % 2 ^ 32
    pure (Ctl.exited status, m, t ++ [Event.exit status])

/-- The loop `for (ii = 0; ii < PLIC_NUM_INTERRUPTS; ii++)
g_ext_interrupt_handlers[ii] = no_interrupt_handler;` of `initializtion`. -/
def clear_handlers (n : Nat) (table : List Handler) : List Handler :=
  (List.range n).foldl (fun t ii => t.set ii Handler.no_interrupt_handler) table

/-- Embedding of `initializtion`.  `now` is the value read from `mtime`. -/
def initializtion (P : Platform) (now : Nat) (m : Machine) : Machine × List Event :=
  -- clear_csr(mie, MIP_MEIP); clear_csr(mie, MIP_MTIP);
  let mie := bic32 m.mie P.MIP_MEIP
  let mie := bic32 mie P.MIP_MTIP
  let t := [Event.clear_csr_mie P.MIP_MEIP, Event.clear_csr_mie P.MIP_MTIP]
  -- for (ii ...) g_ext_interrupt_handlers[ii] = no_interrupt_handler;
  let table := clear_handlers P.PLIC_NUM_INTERRUPTS m.g_ext_interrupt_handlers
  -- g_ext_interrupt_handlers[INT_DEVICE_BUTTON_0] = button_0_handler;
  let table := table.set P.INT_DEVICE_BUTTON_0 Handler.button_0_handler
  -- print_banner(); PLIC_enable_interrupt(...); PLIC_set_priority(..., 1);
  let t := t ++ [Event.print_banner, Event.PLIC_enable_interrupt P.INT_DEVICE_BUTTON_0,
    Event.PLIC_set_priority P.INT_DEVICE_BUTTON_0 1]
  -- GPIO_REG(GPIO_RISE_IE) |= (1 << BUTTON_0_OFFSET);
  let rise_ie := or32 m.gpio_rise_ie (1 <<< P.BUTTON_0_OFFSET)
  let t := t ++ [Event.write .GPIO_RISE_IE rise_ie]
  -- GPIO_REG(GPIO_OUTPUT_EN) &= ~(1 << BUTTON_0_OFFSET);
  let output_en := bic32 m.gpio_output_en (1 <<< P.BUTTON_0_OFFSET)
  let t := t ++ [Event.write .GPIO_OUTPUT_EN output_en]
  -- GPIO_REG(GPIO_PULLUP_EN) |= (1 << BUTTON_0_OFFSET);
  let pullup_en := or32 m.gpio_pullup_en (1 <<< P.BUTTON_0_OFFSET)
  let t := t ++ [Event.write .GPIO_PULLUP_EN pullup_en]
  -- GPIO_REG(GPIO_INPUT_EN) |= (1 << BUTTON_0_OFFSET);
  let input_en := or32 m.gpio_input_en (1 <<< P.BUTTON_0_OFFSET)
  let t := t ++ [Event.write .GPIO_INPUT_EN input_en]
  let red := 1 <<< P.RED_LED_OFFSET
  let green := 1 <<< P.GREEN_LED_OFFSET
  let blue := 1 <<< P.BLUE_LED_OFFSET
  -- GPIO_REG(GPIO_INPUT_EN) &= ~(red | green | blue);
  let input_en := bic32 input_en (red ||| green ||| blue)
  let t := t ++ [Event.write .GPIO_INPUT_EN input_en]
  -- GPIO_REG(GPIO_OUTPUT_EN) |= (red | green | blue);
  let output_en := or32 output_en (red ||| green ||| blue)
  let t := t ++ [Event.write .GPIO_OUTPUT_EN output_en]
  -- GPIO_REG(GPIO_OUTPUT_VAL) |= blue;
  let output_val := or32 m.gpio_output_val blue
  let t := t ++ [Event.write .GPIO_OUTPUT_VAL output_val]
  -- GPIO_REG(GPIO_OUTPUT_VAL) &= ~(red | green);
  let output_val := bic32 output_val (red ||| green)
  let t := t ++ [Event.write .GPIO_OUTPUT_VAL output_val]
  -- uint64_t now = *mtime; uint64_t then = now + 2*RTC_FREQ; *mtimecmp = then;
  let next := (now + 2 * P.RTC_FREQ) % 2 ^ 64
  let t := t ++ [Event.read .CLINT_MTIME now, Event.write .CLINT_MTIMECMP next]
  -- set_csr(mie, MIP_MEIP); set_csr(mie, MIP_MTIP); set_csr(mstatus, MSTATUS_MIE);
  let mie := or32 mie P.MIP_MEIP
  let mie := or32 mie P.MIP_MTIP
  let mstatus := or32 m.mstatus P.MSTATUS_MIE
  let t := t ++ [Event.set_csr_mie P.MIP_MEIP, Event.set_csr_mie P.MIP_MTIP,
    Event.set_csr_mstatus P.MSTATUS_MIE]
  ({ play_audio := m.play_audio,
     index := m.index,
     g_ext_interrupt_handlers := table,
     mie := mie,
     mstatus := mstatus,
     mtimecmp := next,
     gpio_output_val := output_val,
     gpio_output_en := output_en,
     gpio_input_en := input_en,
     gpio_pullup_en := pullup_en,
     gpio_rise_ie := rise_ie }, t)

/-- State of the program when `main` is entered: the initialisers
`int play_audio = 1` and `static unsigned int index=0`, the zero-initialised
handler table, and the registers as the hardware `hw` leaves them. -/
def boot (P : Platform) (hw : Machine) : Machine :=
  { hw with
    play_audio := 1,
    index := 0,
    g_ext_interrupt_handlers := List.replicate P.PLIC_NUM_INTERRUPTS Handler.null }

/-- Inputs of one timer tick: the `mtime` value read and the SPI responses. -/
structure TickInput where
  now : Nat
  bus : List Nat
  deriving DecidableEq, Repr

/-- Consecutive timer interrupts, one per element of the input list, with no
other handler in between; the events of the ticks are concatenated. -/
def ticks (P : Platform) (wave : List Nat) :
    List TickInput → Machine → Except Fault (Machine × List Event)
  | [], m => .ok (m, [])
  | i :: is, m =>
    match handle_m_time_interrupt P wave i.now i.bus m with
    | .error e => .error e
    | .ok (m1, t1) =>
      match ticks P wave is m1 with
      | .error e => .error e
      | .ok (m2, t2) => .ok (m2, t1 ++ t2)

/-- The words passed to `spi_tx16`, in call order. -/
def sent (t : List Event) : List Nat :=
  t.filterMap (fun e => match e with
    | .spi_tx16 w => some w
    | _ => none)

/-- The indices at which `wave` was read, in order. -/
def waveReads (t : List Event) : List Nat :=
  t.filterMap (fun e => match e with
    | .wave_read i => some i
    | _ => none)

/-- The register writes of a trace, in order. -/
def writes (t : List Event) : List (Reg × Nat) :=
  t.filterMap (fun e => match e with
    | .write r v => some (r, v)
    | _ => none)

/-- The handlers called through the table, in order. -/
def calls (t : List Event) : List Handler :=
  t.filterMap (fun e => match e with
    | .call h => some h
    | _ => none)

/-- The playback state is Playing (`play_audio` is non-zero). -/
def Playing (m : Machine) : Prop := m.play_audio ≠ 0

/-- The playback state is Idle (`play_audio` is zero). -/
def Idle (m : Machine) : Prop := m.play_audio = 0

instance (m : Machine) : Decidable (Playing m) := by unfold Playing; infer_instance

instance (m : Machine) : Decidable (Idle m) := by unfold Idle; infer_instance

/-- A machine used for concrete evaluations. -/
def m0 : Machine where
  play_audio := 0
  index := 0
  g_ext_interrupt_handlers := List.replicate 52 Handler.null
  mie := 0
  mstatus := 0
  mtimecmp := 0
  gpio_output_val := 0
  gpio_output_en := 0
  gpio_input_en := 0
  gpio_pullup_en := 0
  gpio_rise_ie := 0

/-- The sample buffer of the end-to-end scenario. -/
def wave3 : List Nat := [0x100, 0x200, 0x3FF]

/-- The value `v` read from `TXFIFO` has the full flag set. -/
def txfifoFull (P : Platform) (v : Nat) : Bool := v &&& P.SPI_TXFIFO_FULL ≠ 0

/-- The value `v` read from `IP` does not have the transmit-watermark flag set. -/
def txwmPending (P : Platform) (v : Nat) : Bool := v &&& P.SPI_IP_TXWM ≠ P.SPI_IP_TXWM

/-- Every busy-wait of `spi_tx16` leaves on the responses `bus`: a value with
the full flag clear arrives, after it another one, and after that a value with
the transmit-watermark flag set. -/
def busExits (P : Platform) (bus : List Nat) : Bool :=
  match bus.dropWhile (txfifoFull P) with
  | [] => false
  | _ :: bus1 =>
    match bus1.dropWhile (txfifoFull P) with
    | [] => false
    | _ :: bus2 =>
      match bus2.dropWhile (txwmPending P) with
      | [] => false
      | _ :: _ => true

/-- The register writes of one 16-bit frame carrying `w`. -/
def frame (P : Platform) (w : Nat) : List (Reg × Nat) :=
  [(Reg.SPI_REG_CSMODE, P.SPI_CSMODE_HOLD), (Reg.SPI_REG_TXFIFO, (w >>> 8) &&& 0xff),
   (Reg.SPI_REG_TXFIFO, w &&& 0xff), (Reg.SPI_REG_CSMODE, P.SPI_CSMODE_AUTO)]

/-- The DAC command word of a sample: `(sample & 0x0FFF) | 0x7000`. -/
def dacWord (sample : Nat) : Nat := (sample &&& 0x0FFF) ||| 0x7000

/-- A machine in state Playing whose cursor has reached the end of `wave3`. -/
def playing3 : Machine := { m0 with play_audio := 1, index := 3 }

/-- A machine in state Playing in the middle of `wave3`. -/
def playing1 : Machine := { m0 with play_audio := 1, index := 1 }

/-- Bus responses on which no busy-wait of `spi_tx16` has to wait. -/
def readyBus : List Nat := [1, 1, 1]

/-- Inputs of four timer ticks on a ready bus. -/
def fourTicks : List TickInput :=
  [{ now := 10, bus := readyBus }, { now := 20, bus := readyBus },
   { now := 30, bus := readyBus }, { now := 40, bus := readyBus }]

/-- What a run leaves to observe of the playback: cursor, `play_audio`, and the
words passed to `spi_tx16`. -/
def playback (r : Except Fault (Machine × List Event)) : Except Fault (Nat × Int × List Nat) :=
  r.map (fun x => (x.1.index, x.1.play_audio, sent x.2))

/-- Inputs of three idle timer ticks; the bus gives no response at all. -/
def threeQuietTicks : List TickInput :=
  [{ now := 10, bus := [] }, { now := 20, bus := [] }, { now := 30, bus := [] }]

/-- A machine after bring-up: `initializtion` run on the boot state. -/
def ready : Machine := (initializtion hifive1 5 (boot hifive1 m0)).1

/-- States the program can be in: the boot state on any hardware register
values, closed under bring-up, timer ticks that return, the trigger handler,
external-interrupt dispatches, and writes to the global `play_audio` from
outside the handlers.  The cursor `index` is static in `handle_m_time_interrupt`
and is changed by nothing but the ticks. -/
inductive Reachable (P : Platform) (wave : List Nat) : Machine → Prop where
  | at_boot (hw : Machine) : Reachable P wave (boot P hw)
  | after_initializtion (now : Nat) (m : Machine) :
      Reachable P wave m → Reachable P wave (initializtion P now m).1
  | after_tick (now : Nat) (bus : List Nat) (m m' : Machine) (t : List Event) :
      Reachable P wave m → handle_m_time_interrupt P wave now bus m = .ok (m', t) →
      Reachable P wave m'
  | after_trigger (m : Machine) :
      Reachable P wave m → Reachable P wave (button_0_handler P m).1
  | after_dispatch (int_num : Nat) (m m' : Machine) (c : Ctl) (t : List Event) :
      Reachable P wave m → handle_m_ext_interrupt P int_num m = .ok (c, m', t) →
      Reachable P wave m'
  | after_write (v : Int) (m : Machine) :
      Reachable P wave m → Reachable P wave { m with play_audio := v }

/-- The machine three ticks after bring-up on `wave3`: Playing, cursor at the
end of the buffer. -/
def afterThreeTicks : Machine :=
  match ticks hifive1 wave3 (fourTicks.take 3) ready with
  | .ok (m, _) => m
  | .error _ => ready

/-! ## Arithmetic of the DAC word -/

theorem dacWord_eq_add (s : Nat) : dacWord s = 28672 + s % 4096 := by
  unfold dacWord
  have h1 : s &&& 0x0FFF = s % 4096 := Nat.and_pow_two_sub_one_eq_mod s 12
  have h2 : s % 4096 < 2 ^ 12 := Nat.mod_lt _ (by norm_num)
  have h3 := Nat.mul_add_lt_is_or h2 7
  rw [h1, Nat.lor_comm]
  norm_num at h3 ⊢
  exact h3.symm

theorem word_store (s : Nat) :
    ((s &&& 0x0fff) % 2 ^ 16 ||| ((1 <<< 14) ||| (1 <<< 13) ||| (1 <<< 12))) % 2 ^ 16
      = dacWord s := by
  have h1 : s &&& 0x0fff = s % 4096 := Nat.and_pow_two_sub_one_eq_mod s 12
  have h2 : s % 4096 < 4096 := Nat.mod_lt _ (by norm_num)
  have h4 : ((1 <<< 14) ||| (1 <<< 13) ||| (1 <<< 12) : Nat) = 0x7000 := by decide
  have h5 := dacWord_eq_add s
  have h6 : (s % 4096) % 2 ^ 16 = s % 4096 := Nat.mod_eq_of_lt (by omega)
  rw [h4, h1, h6]
  have h7 : s % 4096 ||| 0x7000 = dacWord s := by unfold dacWord; rw [h1]
  rw [h7, h5]
  exact Nat.mod_eq_of_lt (by omega)

/-! ## Projections of a trace -/

theorem writes_append (s t : List Event) : writes (s ++ t) = writes s ++ writes t := by
  simp [writes]

theorem sent_append (s t : List Event) : sent (s ++ t) = sent s ++ sent t := by
  simp [sent]

theorem waveReads_append (s t : List Event) : waveReads (s ++ t) = waveReads s ++ waveReads t := by
  simp [waveReads]

theorem calls_append (s t : List Event) : calls (s ++ t) = calls s ++ calls t := by
  simp [calls]

theorem writes_reads (r : Reg) (l : List Nat) : writes (l.map (Event.read r)) = [] := by
  induction l with
  | nil => rfl
  | cons v l ih => simp [writes]

theorem sent_reads (r : Reg) (l : List Nat) : sent (l.map (Event.read r)) = [] := by
  induction l with
  | nil => rfl
  | cons v l ih => simp [sent]

theorem waveReads_reads (r : Reg) (l : List Nat) : waveReads (l.map (Event.read r)) = [] := by
  induction l with
  | nil => rfl
  | cons v l ih => simp [waveReads]

theorem calls_reads (r : Reg) (l : List Nat) : calls (l.map (Event.read r)) = [] := by
  induction l with
  | nil => rfl
  | cons v l ih => simp [calls]

/-! ## The busy-waits and the 16-bit frame -/

theorem dropWhile_split {p : Nat → Bool} :
    ∀ (l : List Nat) (x : Nat) (rest : List Nat), l.dropWhile p = x :: rest →
      ∃ a, l = a ++ x :: rest ∧ (∀ v ∈ a, p v = true) ∧ p x = false := by
  intro l
  induction l with
  | nil => intro x rest h; simp at h
  | cons v l ih =>
    intro x rest h
    by_cases hv : p v = true
    · rw [List.dropWhile_cons, if_pos hv] at h
      obtain ⟨a, ha, hall, hx⟩ := ih x rest h
      refine ⟨v :: a, by simp [ha], ?_, hx⟩
      intro u hu
      rcases List.mem_cons.mp hu with h1 | h1
      · rw [h1]; exact hv
      · exact hall u h1
    · rw [List.dropWhile_cons, if_neg hv] at h
      injection h with h1 h2
      subst h1
      subst h2
      exact ⟨[], rfl, by simp, by simpa using hv⟩

theorem wait_txfifo_not_full_append (P : Platform) (a : List Nat) (x : Nat) (rest : List Nat)
    (ha : ∀ v ∈ a, v &&& P.SPI_TXFIFO_FULL ≠ 0) (hx : x &&& P.SPI_TXFIFO_FULL = 0) :
    wait_txfifo_not_full P (a ++ x :: rest)
      = .ok (a.map (Event.read .SPI_REG_TXFIFO) ++ [Event.read .SPI_REG_TXFIFO x], rest) := by
  induction a with
  | nil => simp [wait_txfifo_not_full, hx]
  | cons v a ih =>
    have hv : v &&& P.SPI_TXFIFO_FULL ≠ 0 := ha v (by simp)
    have ih1 := ih (fun u hu => ha u (by simp [hu]))
    simp [wait_txfifo_not_full, hv, ih1]

theorem wait_ip_txwm_append (P : Platform) (c : List Nat) (z : Nat) (rest : List Nat)
    (hc : ∀ v ∈ c, v &&& P.SPI_IP_TXWM ≠ P.SPI_IP_TXWM) (hz : z &&& P.SPI_IP_TXWM = P.SPI_IP_TXWM) :
    wait_ip_txwm P (c ++ z :: rest)
      = .ok (c.map (Event.read .SPI_REG_IP) ++ [Event.read .SPI_REG_IP z], rest) := by
  induction c with
  | nil => simp [wait_ip_txwm, hz]
  | cons v c ih =>
    have hv : v &&& P.SPI_IP_TXWM ≠ P.SPI_IP_TXWM := hc v (by simp)
    have ih1 := ih (fun u hu => hc u (by simp [hu]))
    simp [wait_ip_txwm, hv, ih1]

theorem spi_tx16_trace (P : Platform) (w : Nat) (a : List Nat) (x : Nat) (b : List Nat) (y : Nat)
    (c : List Nat) (z : Nat) (d : List Nat)
    (ha : ∀ v ∈ a, v &&& P.SPI_TXFIFO_FULL ≠ 0) (hx : x &&& P.SPI_TXFIFO_FULL = 0)
    (hb : ∀ v ∈ b, v &&& P.SPI_TXFIFO_FULL ≠ 0) (hy : y &&& P.SPI_TXFIFO_FULL = 0)
    (hc : ∀ v ∈ c, v &&& P.SPI_IP_TXWM ≠ P.SPI_IP_TXWM) (hz : z &&& P.SPI_IP_TXWM = P.SPI_IP_TXWM) :
    spi_tx16 P w (a ++ x :: (b ++ y :: (c ++ z :: d)))
      = .ok ([Event.write .SPI_REG_CSMODE P.SPI_CSMODE_HOLD]
          ++ (a ++ [x]).map (Event.read .SPI_REG_TXFIFO)
          ++ [Event.write .SPI_REG_TXFIFO ((w >>> 8) &&& 0xff)]
          ++ (b ++ [y]).map (Event.read .SPI_REG_TXFIFO)
          ++ [Event.write .SPI_REG_TXFIFO (w &&& 0xff)]
          ++ (c ++ [z]).map (Event.read .SPI_REG_IP)
          ++ [Event.write .SPI_REG_CSMODE P.SPI_CSMODE_AUTO], d) := by
  unfold spi_tx16
  rw [wait_txfifo_not_full_append P a x _ ha hx]
  simp only [bind, Except.bind]
  rw [wait_txfifo_not_full_append P b y _ hb hy]
  simp only [bind, Except.bind]
  rw [wait_ip_txwm_append P c z _ hc hz]
  simp [pure, Except.pure]

theorem busExits_split (P : Platform) (bus : List Nat) (h : busExits P bus = true) :
    ∃ a x b y c z d, bus = a ++ x :: (b ++ y :: (c ++ z :: d)) ∧
      (∀ v ∈ a, v &&& P.SPI_TXFIFO_FULL ≠ 0) ∧ x &&& P.SPI_TXFIFO_FULL = 0 ∧
      (∀ v ∈ b, v &&& P.SPI_TXFIFO_FULL ≠ 0) ∧ y &&& P.SPI_TXFIFO_FULL = 0 ∧
      (∀ v ∈ c, v &&& P.SPI_IP_TXWM ≠ P.SPI_IP_TXWM) ∧ z &&& P.SPI_IP_TXWM = P.SPI_IP_TXWM := by
  unfold busExits at h
  split at h
  · simp at h
  · rename_i x bus1 h1
    split at h
    · simp at h
    · rename_i y bus2 h2
      split at h
      · simp at h
      · rename_i z d h3
        obtain ⟨a, ea, ha, hx⟩ := dropWhile_split bus x bus1 h1
        obtain ⟨b, eb, hb, hy⟩ := dropWhile_split bus1 y bus2 h2
        obtain ⟨c, ec, hc, hz⟩ := dropWhile_split bus2 z d h3
        refine ⟨a, x, b, y, c, z, d, ?_, ?_, ?_, ?_, ?_, ?_, ?_⟩
        · rw [ea, eb, ec]
        · intro v hv; simpa [txfifoFull] using ha v hv
        · simpa [txfifoFull] using hx
        · intro v hv; simpa [txfifoFull] using hb v hv
        · simpa [txfifoFull] using hy
        · intro v hv; simpa [txwmPending] using hc v hv
        · simpa [txwmPending] using hz

theorem spi_tx16_of_busExits (P : Platform) (w : Nat) (bus : List Nat)
    (h : busExits P bus = true) :
    ∃ r rest, spi_tx16 P w bus = .ok (r, rest) ∧ writes r = frame P w ∧ sent r = [] ∧
      waveReads r = [] ∧ calls r = [] := by
  obtain ⟨a, x, b, y, c, z, d, e, ha, hx, hb, hy, hc, hz⟩ := busExits_split P bus h
  refine ⟨_, _, by rw [e]; exact spi_tx16_trace P w a x b y c z d ha hx hb hy hc hz, ?_, ?_, ?_, ?_⟩
  · simp only [writes_append, writes_reads]
    simp [writes, frame]
  · simp only [sent_append, sent_reads]
    simp [sent]
  · simp only [waveReads_append, waveReads_reads]
    simp [waveReads]
  · simp only [calls_append, calls_reads]
    simp [calls]

theorem wait_txfifo_not_full_error (P : Platform) :
    ∀ (bus : List Nat) (e : Fault), wait_txfifo_not_full P bus = .error e → e = Fault.hang := by
  intro bus
  induction bus with
  | nil => intro e h; simp [wait_txfifo_not_full] at h; exact h.symm
  | cons v bus ih =>
    intro e h
    unfold wait_txfifo_not_full at h
    split at h
    · split at h
      · simp at h
      · rename_i e1 h1
        injection h with h2
        subst h2
        exact ih _ h1
    · simp at h

theorem wait_ip_txwm_error (P : Platform) :
    ∀ (bus : List Nat) (e : Fault), wait_ip_txwm P bus = .error e → e = Fault.hang := by
  intro bus
  induction bus with
  | nil => intro e h; simp [wait_ip_txwm] at h; exact h.symm
  | cons v bus ih =>
    intro e h
    unfold wait_ip_txwm at h
    split at h
    · split at h
      · simp at h
      · rename_i e1 h1
        injection h with h2
        subst h2
        exact ih _ h1
    · simp at h

theorem spi_tx16_error (P : Platform) (w : Nat) (bus : List Nat) (e : Fault)
    (h : spi_tx16 P w bus = .error e) : e = Fault.hang := by
  unfold spi_tx16 at h
  simp only [bind, Except.bind, pure, Except.pure] at h
  split at h
  · rename_i e1 h1
    injection h with h2
    subst h2
    exact wait_txfifo_not_full_error P _ _ h1
  · split at h
    · rename_i e1 h1
      injection h with h2
      subst h2
      exact wait_txfifo_not_full_error P _ _ h1
    · split at h
      · rename_i e1 h1
        injection h with h2
        subst h2
        exact wait_ip_txwm_error P _ _ h1
      · simp at h

theorem wait_txfifo_not_full_waveReads (P : Platform) :
    ∀ (bus : List Nat) (r : List Event) (rest : List Nat),
      wait_txfifo_not_full P bus = .ok (r, rest) → waveReads r = [] ∧ sent r = [] := by
  intro bus
  induction bus with
  | nil => intro r rest h; simp [wait_txfifo_not_full] at h
  | cons v bus ih =>
    intro r rest h
    unfold wait_txfifo_not_full at h
    split at h
    · split at h
      · rename_i evs rest1 h1
        injection h with h2
        injection h2 with h3 h4
        subst h3
        obtain ⟨ha, hb⟩ := ih _ _ h1
        exact ⟨by simpa [waveReads] using ha, by simpa [sent] using hb⟩
      · simp at h
    · injection h with h2
      injection h2 with h3 h4
      subst h3
      exact ⟨rfl, rfl⟩

theorem wait_ip_txwm_waveReads (P : Platform) :
    ∀ (bus : List Nat) (r : List Event) (rest : List Nat),
      wait_ip_txwm P bus = .ok (r, rest) → waveReads r = [] ∧ sent r = [] := by
  intro bus
  induction bus with
  | nil => intro r rest h; simp [wait_ip_txwm] at h
  | cons v bus ih =>
    intro r rest h
    unfold wait_ip_txwm at h
    split at h
    · split at h
      · rename_i evs rest1 h1
        injection h with h2
        injection h2 with h3 h4
        subst h3
        obtain ⟨ha, hb⟩ := ih _ _ h1
        exact ⟨by simpa [waveReads] using ha, by simpa [sent] using hb⟩
      · simp at h
    · injection h with h2
      injection h2 with h3 h4
      subst h3
      exact ⟨rfl, rfl⟩

theorem spi_tx16_waveReads (P : Platform) (w : Nat) (bus : List Nat) (r : List Event)
    (rest : List Nat) (h : spi_tx16 P w bus = .ok (r, rest)) : waveReads r = [] := by
  unfold spi_tx16 at h
  simp only [bind, Except.bind, pure, Except.pure] at h
  split at h
  · simp at h
  · rename_i v1 h1
    split at h
    · simp at h
    · rename_i v2 h2
      split at h
      · simp at h
      · rename_i v3 h3
        injection h with h4
        injection h4 with h5 h6
        subst h5
        have a1 := (wait_txfifo_not_full_waveReads P _ _ _ h1).1
        have a2 := (wait_txfifo_not_full_waveReads P _ _ _ h2).1
        have a3 := (wait_ip_txwm_waveReads P _ _ _ h3).1
        simp only [waveReads_append, a1, a2, a3]
        simp [waveReads]

/-! ## One timer tick, case by case -/

theorem tick_idle (P : Platform) (wave : List Nat) (now : Nat) (bus : List Nat) (m : Machine)
    (h : m.play_audio = 0) :
    handle_m_time_interrupt P wave now bus m
      = .ok ({ m with mie := or32 (bic32 m.mie P.MIP_MTIP) P.MIP_MTIP,
                      mtimecmp := (now + 3) % 2 ^ 64 },
          [Event.clear_csr_mie P.MIP_MTIP, Event.read .CLINT_MTIME now,
           Event.write .CLINT_MTIMECMP ((now + 3) % 2 ^ 64), Event.set_csr_mie P.MIP_MTIP]) := by
  simp [handle_m_time_interrupt, h, bind, Except.bind, pure, Except.pure]

theorem tick_inrange (P : Platform) (wave : List Nat) (now : Nat) (bus : List Nat) (m : Machine)
    (sample : Nat) (h : m.play_audio ≠ 0) (hi : m.index < SAMPLES wave)
    (hs : wave[m.index]? = some sample) :
    handle_m_time_interrupt P wave now bus m
      = match spi_tx16 P (dacWord sample) bus with
        | .error e => .error e
        | .ok (r, _) =>
          .ok ({ m with mie := or32 (bic32 m.mie P.MIP_MTIP) P.MIP_MTIP,
                        mtimecmp := (now + 3) % 2 ^ 64,
                        index := (m.index + 1) % 2 ^ 32,
                        gpio_output_val :=
                          or32 (bic32 m.gpio_output_val (1 <<< P.GREEN_LED_OFFSET))
                            (1 <<< P.GREEN_LED_OFFSET) },
            [Event.clear_csr_mie P.MIP_MTIP, Event.read .CLINT_MTIME now,
             Event.write .CLINT_MTIMECMP ((now + 3) % 2 ^ 64),
             Event.write .GPIO_OUTPUT_VAL (bic32 m.gpio_output_val (1 <<< P.GREEN_LED_OFFSET)),
             Event.wave_read m.index, Event.spi_tx16 (dacWord sample)] ++ r ++
            [Event.write .GPIO_OUTPUT_VAL
               (or32 (bic32 m.gpio_output_val (1 <<< P.GREEN_LED_OFFSET))
                 (1 <<< P.GREEN_LED_OFFSET)),
             Event.set_csr_mie P.MIP_MTIP]) := by
  have hw := word_store sample
  have hi2 : ¬ (m.index ≥ SAMPLES wave) := by omega
  simp only [handle_m_time_interrupt, bind, Except.bind, pure, Except.pure, ne_eq, h,
    not_false_eq_true, if_true, hi2, if_false, hs, hw]
  cases spi_tx16 P (dacWord sample) bus with
  | error e => rfl
  | ok v => simp

theorem tick_exhausted (P : Platform) (wave : List Nat) (now : Nat) (bus : List Nat) (m : Machine)
    (sample : Nat) (h : m.play_audio ≠ 0) (hi : SAMPLES wave ≤ m.index)
    (hs : wave[0]? = some sample) :
    handle_m_time_interrupt P wave now bus m
      = match spi_tx16 P (dacWord sample) bus with
        | .error e => .error e
        | .ok (r, _) =>
          .ok ({ m with mie := or32 (bic32 m.mie P.MIP_MTIP) P.MIP_MTIP,
                        mtimecmp := (now + 3) % 2 ^ 64,
                        index := 1,
                        play_audio := 0,
                        gpio_output_val :=
                          or32 (bic32 m.gpio_output_val (1 <<< P.GREEN_LED_OFFSET))
                            (1 <<< P.GREEN_LED_OFFSET) },
            [Event.clear_csr_mie P.MIP_MTIP, Event.read .CLINT_MTIME now,
             Event.write .CLINT_MTIMECMP ((now + 3) % 2 ^ 64),
             Event.write .GPIO_OUTPUT_VAL (bic32 m.gpio_output_val (1 <<< P.GREEN_LED_OFFSET)),
             Event.wave_read 0, Event.spi_tx16 (dacWord sample)] ++ r ++
            [Event.write .GPIO_OUTPUT_VAL
               (or32 (bic32 m.gpio_output_val (1 <<< P.GREEN_LED_OFFSET))
                 (1 <<< P.GREEN_LED_OFFSET)),
             Event.set_csr_mie P.MIP_MTIP]) := by
  have hw := word_store sample
  have hi2 : m.index ≥ SAMPLES wave := hi
  simp only [handle_m_time_interrupt, bind, Except.bind, pure, Except.pure, ne_eq, h,
    not_false_eq_true, if_true, hi2, hs, hw]
  cases spi_tx16 P (dacWord sample) bus with
  | error e => rfl
  | ok v => simp

theorem tick_empty (P : Platform) (now : Nat) (bus : List Nat) (m : Machine)
    (h : m.play_audio ≠ 0) :
    handle_m_time_interrupt P [] now bus m = .error (Fault.wave_out_of_bounds 0) := by
  simp [handle_m_time_interrupt, bind, Except.bind, pure, Except.pure, h, SAMPLES, throw,
    throwThe, MonadExceptOf.throw]

/-! ## Idle ticks and the handler table -/

theorem idle_ticks (P : Platform) (wave : List Nat) :
    ∀ (inputs : List TickInput) (m : Machine), m.play_audio = 0 →
      ∃ m' t, ticks P wave inputs m = .ok (m', t) ∧ m'.index = m.index ∧ m'.play_audio = 0 ∧
        m'.gpio_output_val = m.gpio_output_val ∧ sent t = [] ∧ waveReads t = [] ∧
        (∀ rv ∈ writes t, rv.1 = Reg.CLINT_MTIMECMP) ∧ (writes t).length = inputs.length := by
  intro inputs
  induction inputs with
  | nil =>
    intro m h
    exact ⟨m, [], rfl, rfl, h, rfl, rfl, rfl, by simp [writes], rfl⟩
  | cons i is ih =>
    intro m h
    have h1 := tick_idle P wave i.now i.bus m h
    obtain ⟨m', t, ht, hidx, hpa, hgpio, hsent, hreads, hwr, hcount⟩ :=
      ih { m with mie := or32 (bic32 m.mie P.MIP_MTIP) P.MIP_MTIP,
                  mtimecmp := (i.now + 3) % 2 ^ 64 } h
    refine ⟨m', [Event.clear_csr_mie P.MIP_MTIP, Event.read .CLINT_MTIME i.now,
      Event.write .CLINT_MTIMECMP ((i.now + 3) % 2 ^ 64), Event.set_csr_mie P.MIP_MTIP] ++ t,
      ?_, hidx, hpa, hgpio, ?_, ?_, ?_, ?_⟩
    · simp only [ticks, h1, ht]
    · simp only [sent_append, hsent]
      simp [sent]
    · simp only [waveReads_append, hreads]
      simp [waveReads]
    · intro rv hrv
      simp only [writes_append, List.mem_append] at hrv
      rcases hrv with h2 | h2
      · simp [writes] at h2
        rw [h2]
      · exact hwr rv h2
    · simp only [writes_append, List.length_append, hcount]
      simp [writes]
      omega

theorem clear_handlers_succ (n : Nat) (table : List Handler) :
    clear_handlers (n + 1) table
      = (clear_handlers n table).set n Handler.no_interrupt_handler := by
  simp [clear_handlers, List.range_succ, List.foldl_append]

theorem clear_handlers_length (n : Nat) (table : List Handler) :
    (clear_handlers n table).length = table.length := by
  induction n with
  | zero => simp [clear_handlers]
  | succ n ih => rw [clear_handlers_succ, List.length_set, ih]

theorem clear_handlers_getElem? (n : Nat) (table : List Handler) (i : Nat) (hi : i < n)
    (hlen : n ≤ table.length) :
    (clear_handlers n table)[i]? = some Handler.no_interrupt_handler := by
  induction n with
  | zero => omega
  | succ n ih =>
    rw [clear_handlers_succ]
    by_cases h : n = i
    · subst h
      rw [List.getElem?_set_self]
      simp [clear_handlers_length]
      omega
    · rw [List.getElem?_set_ne h]
      exact ih (by omega) (by omega)

theorem initializtion_table (P : Platform) (now : Nat) (m : Machine) (src : Nat)
    (hlen : m.g_ext_interrupt_handlers.length = P.PLIC_NUM_INTERRUPTS)
    (hsrc : src < P.PLIC_NUM_INTERRUPTS) :
    (initializtion P now m).1.g_ext_interrupt_handlers[src]?
      = some (if src = P.INT_DEVICE_BUTTON_0 then Handler.button_0_handler
              else Handler.no_interrupt_handler) := by
  have h1 : (initializtion P now m).1.g_ext_interrupt_handlers
      = (clear_handlers P.PLIC_NUM_INTERRUPTS m.g_ext_interrupt_handlers).set
          P.INT_DEVICE_BUTTON_0 Handler.button_0_handler := rfl
  rw [h1]
  by_cases h : src = P.INT_DEVICE_BUTTON_0
  · rw [if_pos h, ← h, List.getElem?_set_self]
    simp [clear_handlers_length, hlen, hsrc]
  · rw [if_neg h, List.getElem?_set_ne (Ne.symm h)]
    exact clear_handlers_getElem? _ _ _ hsrc (by omega)

/-! ## Whole playback runs -/

theorem ticks_append (P : Platform) (wave : List Nat) :
    ∀ (xs ys : List TickInput) (m m1 m2 : Machine) (t1 t2 : List Event),
      ticks P wave xs m = .ok (m1, t1) → ticks P wave ys m1 = .ok (m2, t2) →
      ticks P wave (xs ++ ys) m = .ok (m2, t1 ++ t2) := by
  intro xs
  induction xs with
  | nil =>
    intro ys m m1 m2 t1 t2 h1 h2
    simp only [ticks] at h1
    injection h1 with h1
    injection h1 with ha hb
    subst ha
    subst hb
    simpa using h2
  | cons x xs ih =>
    intro ys m m1 m2 t1 t2 h1 h2
    simp only [ticks] at h1
    split at h1
    · simp at h1
    · rename_i ma ta hta
      split at h1
      · simp at h1
      · rename_i mb tb htb
        injection h1 with h1
        injection h1 with ha hb
        subst ha
        subst hb
        have h3 := ih ys ma _ m2 tb t2 htb h2
        show ticks P wave (x :: (xs ++ ys)) m = _
        simp only [ticks, hta, h3, List.append_assoc]

theorem tick_in_buffer_sends_sample (P : Platform) (wave : List Nat) (now : Nat) (bus : List Nat)
    (m : Machine) (hlen : SAMPLES wave < 2 ^ 32) (hp : m.play_audio ≠ 0)
    (hi : m.index < SAMPLES wave) (hbus : busExits P bus = true) :
    ∃ sample m' t, wave[m.index]? = some sample ∧
      handle_m_time_interrupt P wave now bus m = .ok (m', t) ∧
      sent t = [dacWord sample] ∧ waveReads t = [m.index] ∧ m'.index = m.index + 1 ∧
      m'.play_audio = m.play_audio := by
  have hi' : m.index < wave.length := hi
  have hs : wave[m.index]? = some (wave[m.index]) := List.getElem?_eq_getElem hi'
  obtain ⟨r, rest, hr, _, hsr, hrr, _⟩ :=
    spi_tx16_of_busExits P (dacWord (wave[m.index])) bus hbus
  have ht := tick_inrange P wave now bus m _ hp hi hs
  rw [hr] at ht
  refine ⟨wave[m.index], _, _, hs, ht, ?_, ?_, ?_, rfl⟩
  · simp only [sent_append, hsr]
    simp [sent]
  · simp only [waveReads_append, hrr]
    simp [waveReads]
  · apply Nat.mod_eq_of_lt
    simp only [SAMPLES] at hlen
    omega

theorem playing_run (P : Platform) (wave : List Nat) (hlen : SAMPLES wave < 2 ^ 32) :
    ∀ (inputs : List TickInput) (m : Machine), m.play_audio ≠ 0 →
      m.index + inputs.length ≤ SAMPLES wave → (∀ i ∈ inputs, busExits P i.bus = true) →
      ∃ m' t, ticks P wave inputs m = .ok (m', t) ∧
        sent t = ((wave.drop m.index).take inputs.length).map dacWord ∧
        m'.index = m.index + inputs.length ∧ m'.play_audio = m.play_audio := by
  intro inputs
  induction inputs with
  | nil =>
    intro m _ _ _
    exact ⟨m, [], rfl, by simp [sent], rfl, rfl⟩
  | cons i is ih =>
    intro m hp hidx hbus
    have hi : m.index < wave.length := by
      simp only [List.length_cons, SAMPLES] at hidx
      omega
    obtain ⟨sample, m1, t1, hs, ht, hsent1, _, hidx1, hpa1⟩ :=
      tick_in_buffer_sends_sample P wave i.now i.bus m hlen hp hi (hbus i (by simp))
    obtain ⟨m', t, hrun, hsent, hidx', hpa'⟩ :=
      ih m1 (by rw [hpa1]; exact hp)
        (by simp only [List.length_cons] at hidx; rw [hidx1]; omega)
        (fun j hj => hbus j (by simp [hj]))
    have hsample : wave[m.index] = sample := by
      rw [List.getElem?_eq_getElem hi] at hs
      exact Option.some.inj hs
    refine ⟨m', t1 ++ t, ?_, ?_, ?_, ?_⟩
    · simp only [ticks, ht, hrun]
    · simp only [sent_append, hsent1, hsent, hidx1]
      rw [List.drop_eq_getElem_cons hi, hsample]
      simp
    · rw [hidx', hidx1]
      simp only [List.length_cons]
      omega
    · rw [hpa', hpa1]

theorem tick_at_end_sends_first (P : Platform) (wave : List Nat) (now : Nat) (bus : List Nat)
    (m : Machine) (h1 : 1 ≤ SAMPLES wave) (hp : m.play_audio ≠ 0)
    (hi : SAMPLES wave ≤ m.index) (hbus : busExits P bus = true) :
    ∃ sample m' t, wave[0]? = some sample ∧
      handle_m_time_interrupt P wave now bus m = .ok (m', t) ∧
      sent t = [dacWord sample] ∧ waveReads t = [0] ∧ m'.index = 1 ∧ m'.play_audio = 0 := by
  have hlen : 0 < wave.length := h1
  obtain ⟨r, rest, hr, _, hsr, hrr, _⟩ := spi_tx16_of_busExits P (dacWord (wave[0])) bus hbus
  have ht := tick_exhausted P wave now bus m _ hp hi (List.getElem?_eq_getElem hlen)
  rw [hr] at ht
  refine ⟨wave[0], _, _, List.getElem?_eq_getElem hlen, ht, ?_, ?_, rfl, rfl⟩
  · simp only [sent_append, hsr]
    simp [sent]
  · simp only [waveReads_append, hrr]
    simp [waveReads]

theorem playback_then_extra_word (P : Platform) (wave : List Nat) (inputs : List TickInput)
    (last : TickInput) (m : Machine) (h1 : 1 ≤ SAMPLES wave) (hlen : SAMPLES wave < 2 ^ 32)
    (hidx : m.index = 0) (hn : inputs.length = SAMPLES wave)
    (hbus : ∀ i ∈ inputs, busExits P i.bus = true) (hlast : busExits P last.bus = true) :
    ∃ sample m1 t1 m2 t2, wave[0]? = some sample ∧
      ticks P wave inputs (button_0_handler P m).1 = .ok (m1, t1) ∧
      sent t1 = wave.map dacWord ∧ m1.index = SAMPLES wave ∧ m1.play_audio = 1 ∧
      ticks P wave (inputs ++ [last]) (button_0_handler P m).1 = .ok (m2, t2) ∧
      sent t2 = wave.map dacWord ++ [dacWord sample] ∧ m2.index = 1 ∧ m2.play_audio = 0 := by
  have hb0 : (button_0_handler P m).1.index = 0 := hidx
  have hbp : (button_0_handler P m).1.play_audio = 1 := rfl
  obtain ⟨m1, t1, hrun, hsent, hidx1, hpa1⟩ :=
    playing_run P wave hlen inputs (button_0_handler P m).1 (by rw [hbp]; decide)
      (by rw [hb0, hn]; omega) hbus
  rw [hb0, hn] at hsent hidx1
  have hall : List.take (SAMPLES wave) (List.drop 0 wave) = wave := by
    simp [SAMPLES]
  rw [hall] at hsent
  rw [hbp] at hpa1
  obtain ⟨sample, m2, t2, hs, ht, hsent2, _, hidx2, hpa2⟩ :=
    tick_at_end_sends_first P wave last.now last.bus m1 h1 (by rw [hpa1]; decide)
      (by rw [hidx1]; omega) hlast
  have hone : ticks P wave [last] m1 = .ok (m2, t2 ++ []) := by
    simp only [ticks, ht]
  have happ := ticks_append P wave inputs [last] _ m1 m2 t1 (t2 ++ []) hrun hone
  refine ⟨sample, m1, t1, m2, t1 ++ (t2 ++ []), hs, hrun, hsent, by omega, hpa1, happ, ?_,
    hidx2, hpa2⟩
  simp only [sent_append, hsent, hsent2]
  simp [sent]

/-! ## The states the program can be in -/

theorem tick_reads_any_state (P : Platform) (wave : List Nat) (now : Nat) (bus : List Nat)
    (m : Machine) (h1 : 1 ≤ SAMPLES wave) :
    (∀ i, handle_m_time_interrupt P wave now bus m ≠ .error (Fault.wave_out_of_bounds i)) ∧
    (busExits P bus = true → ∃ m' t, handle_m_time_interrupt P wave now bus m = .ok (m', t)) ∧
    (∀ m' t, handle_m_time_interrupt P wave now bus m = .ok (m', t) →
      (∀ i ∈ waveReads t, i < SAMPLES wave) ∧
      ((Playing m ∨ m.index ≤ SAMPLES wave) → m'.index ≤ SAMPLES wave)) ∧
    (button_0_handler P m).1.index = m.index ∧
    (m.index ≤ SAMPLES wave → (button_0_handler P m).1.index ≤ SAMPLES wave) := by
  have hlen : 0 < wave.length := h1
  -- the index read in state Playing, and the sample found there
  obtain ⟨i, s, hs, hi, hcase⟩ : ∃ i s, wave[i]? = some s ∧ i < SAMPLES wave ∧
      (m.play_audio ≠ 0 → ∃ pa,
        handle_m_time_interrupt P wave now bus m
          = match spi_tx16 P (dacWord s) bus with
            | .error e => .error e
            | .ok (r, _) =>
              .ok ({ m with mie := or32 (bic32 m.mie P.MIP_MTIP) P.MIP_MTIP,
                            mtimecmp := (now + 3) % 2 ^ 64,
                            index := (i + 1) % 2 ^ 32,
                            play_audio := pa,
                            gpio_output_val :=
                              or32 (bic32 m.gpio_output_val (1 <<< P.GREEN_LED_OFFSET))
                                (1 <<< P.GREEN_LED_OFFSET) },
                [Event.clear_csr_mie P.MIP_MTIP, Event.read .CLINT_MTIME now,
                 Event.write .CLINT_MTIMECMP ((now + 3) % 2 ^ 64),
                 Event.write .GPIO_OUTPUT_VAL
                   (bic32 m.gpio_output_val (1 <<< P.GREEN_LED_OFFSET)),
                 Event.wave_read i, Event.spi_tx16 (dacWord s)] ++ r ++
                [Event.write .GPIO_OUTPUT_VAL
                   (or32 (bic32 m.gpio_output_val (1 <<< P.GREEN_LED_OFFSET))
                     (1 <<< P.GREEN_LED_OFFSET)),
                 Event.set_csr_mie P.MIP_MTIP])) := by
    by_cases hin : m.index < SAMPLES wave
    · have hin' : m.index < wave.length := hin
      refine ⟨m.index, wave[m.index], List.getElem?_eq_getElem hin', hin, fun hp => ?_⟩
      exact ⟨m.play_audio, tick_inrange P wave now bus m _ hp hin (List.getElem?_eq_getElem hin')⟩
    · refine ⟨0, wave[0], List.getElem?_eq_getElem hlen, h1, fun hp => ?_⟩
      exact ⟨0, tick_exhausted P wave now bus m _ hp (by omega) (List.getElem?_eq_getElem hlen)⟩
  have hstep : (i + 1) % 2 ^ 32 ≤ SAMPLES wave :=
    Nat.le_trans (Nat.mod_le _ _) hi
  refine ⟨?_, ?_, ?_, rfl, fun h => h⟩
  · intro j hj
    by_cases hp : m.play_audio = 0
    · rw [tick_idle P wave now bus m hp] at hj
      simp at hj
    · obtain ⟨pa, ht⟩ := hcase hp
      rw [ht] at hj
      split at hj
      · rename_i e he
        have := spi_tx16_error P _ _ _ he
        subst this
        simp at hj
      · simp at hj
  · intro hbus
    by_cases hp : m.play_audio = 0
    · exact ⟨_, _, tick_idle P wave now bus m hp⟩
    · obtain ⟨pa, ht⟩ := hcase hp
      obtain ⟨r, rest, hr, _⟩ := spi_tx16_of_busExits P (dacWord s) bus hbus
      rw [hr] at ht
      exact ⟨_, _, ht⟩
  · intro m' t hok
    by_cases hp : m.play_audio = 0
    · rw [tick_idle P wave now bus m hp] at hok
      injection hok with hok
      injection hok with hm ht
      subst hm
      subst ht
      refine ⟨by simp [waveReads], ?_⟩
      rintro (h | h)
      · exact absurd hp h
      · exact h
    · obtain ⟨pa, ht⟩ := hcase hp
      rw [ht] at hok
      split at hok
      · simp at hok
      · rename_i r rest hr
        injection hok with hok
        injection hok with hm ht'
        subst hm
        subst ht'
        refine ⟨?_, fun _ => hstep⟩
        have hrr : waveReads r = [] := spi_tx16_waveReads P _ _ _ _ hr
        intro j hj
        simp only [waveReads_append, hrr] at hj
        simp [waveReads] at hj
        rw [hj]
        exact hi

theorem handle_m_ext_interrupt_index (P : Platform) (src : Nat) (m m' : Machine) (c : Ctl)
    (t : List Event) (h : handle_m_ext_interrupt P src m = .ok (c, m', t)) :
    m'.index = m.index := by
  by_cases hg : src ≥ 1 ∧ src < P.PLIC_NUM_INTERRUPTS
  · simp only [handle_m_ext_interrupt, hg, and_self, if_true, bind, Except.bind, pure,
      Except.pure] at h
    generalize m.g_ext_interrupt_handlers.getD src Handler.null = hd at h
    cases hd with
    | null => simp [call_handler] at h
    | no_interrupt_handler =>
      simp [call_handler] at h
      rw [← h.2.1]
    | button_0_handler =>
      simp [call_handler] at h
      rw [← h.2.1]
      rfl
  · simp [handle_m_ext_interrupt, hg, pure, Except.pure] at h
    rw [← h.2.1]

theorem reachable_index_le (P : Platform) (wave : List Nat) (h1 : 1 ≤ SAMPLES wave) :
    ∀ m, Reachable P wave m → m.index ≤ SAMPLES wave := by
  intro m hr
  induction hr with
  | at_boot hw => exact Nat.zero_le _
  | after_initializtion now m _ ih => exact ih
  | after_tick now bus m m' t _ hstep ih =>
    exact ((tick_reads_any_state P wave now bus m h1).2.2.1 m' t hstep).2 (Or.inr ih)
  | after_trigger m _ ih => exact ih
  | after_dispatch src m m' c t _ hstep ih =>
    rw [handle_m_ext_interrupt_index P src m m' c t hstep]
    exact ih
  | after_write v m _ ih => exact ih

theorem reachable_ticks (P : Platform) (wave : List Nat) :
    ∀ (inputs : List TickInput) (m m' : Machine) (t : List Event),
      Reachable P wave m → ticks P wave inputs m = .ok (m', t) → Reachable P wave m' := by
  intro inputs
  induction inputs with
  | nil =>
    intro m m' t hr h
    simp only [ticks] at h
    injection h with h
    injection h with ha _
    rw [← ha]
    exact hr
  | cons x xs ih =>
    intro m m' t hr h
    simp only [ticks] at h
    split at h
    · simp at h
    · rename_i ma ta hta
      split at h
      · simp at h
      · rename_i mb tb htb
        injection h with h
        injection h with ha _
        rw [← ha]
        exact ih ma mb tb (Reachable.after_tick x.now x.bus m ma ta hr hta) htb

/-! ## The claims -/

/-- C3. Playing step: in every state with `play_audio ≠ 0` and `index < SAMPLES`
(the buffer fitting the 32-bit `index`), on bus responses on which the
busy-waits of `spi_tx16` leave, one timer tick returns, calls `spi_tx16` exactly
once, with the word `(wave[index] & 0x0FFF) | 0x7000`, whose bits 15..12 are
`0111` and whose low 12 bits are those of the sample; the register writes of
the tick are the timer rearm, the status output low, the one SPI frame of that
word and the status output high; `index` advances by exactly one and
`play_audio` is unchanged, so the state is still Playing. -/
theorem playing_step (P : Platform) (wave : List Nat) (now : Nat) (bus : List Nat) (m : Machine)
    (hlen : SAMPLES wave < 2 ^ 32) (hp : Playing m) (hi : m.index < SAMPLES wave)
    (hbus : busExits P bus = true) :
    ∃ sample m' t, wave[m.index]? = some sample ∧
      handle_m_time_interrupt P wave now bus m = .ok (m', t) ∧
      sent t = [(sample &&& 0x0FFF) ||| 0x7000] ∧
      ((sample &&& 0x0FFF) ||| 0x7000) / 4096 = 7 ∧
      ((sample &&& 0x0FFF) ||| 0x7000) % 4096 = sample % 4096 ∧
      waveReads t = [m.index] ∧
      writes t = [(Reg.CLINT_MTIMECMP, (now + 3) % 2 ^ 64),
          (Reg.GPIO_OUTPUT_VAL, bic32 m.gpio_output_val (1 <<< P.GREEN_LED_OFFSET))]
        ++ frame P ((sample &&& 0x0FFF) ||| 0x7000)
        ++ [(Reg.GPIO_OUTPUT_VAL, m'.gpio_output_val)] ∧
      m'.index = m.index + 1 ∧ m'.play_audio = m.play_audio ∧ Playing m' := by
  have hi' : m.index < wave.length := hi
  obtain ⟨r, rest, hr, hwr, hsr, hrr, _⟩ :=
    spi_tx16_of_busExits P (dacWord (wave[m.index])) bus hbus
  have hs : wave[m.index]? = some (wave[m.index]) := List.getElem?_eq_getElem hi'
  have ht := tick_inrange P wave now bus m _ hp hi hs
  rw [hr] at ht
  have hadd := dacWord_eq_add (wave[m.index])
  have hlt : m.index + 1 < 2 ^ 32 := by unfold SAMPLES at hlen; omega
  refine ⟨wave[m.index], _, _, hs, ht, ?_, ?_, ?_, ?_, ?_, ?_, ?_, ?_⟩
  · simp only [sent_append, hsr]
    simp [sent, dacWord]
  · change dacWord _ / 4096 = 7
    omega
  · change dacWord _ % 4096 = _
    omega
  · simp only [waveReads_append, hrr]
    simp [waveReads]
  · simp only [writes_append, hwr]
    simp [writes, dacWord]
  · exact Nat.mod_eq_of_lt hlt
  · rfl
  · exact hp

/-- Witness of C3 on the three-sample buffer, cursor 1. -/
theorem playing_step_witness :
    ∃ sample m' t, wave3[playing1.index]? = some sample ∧
      handle_m_time_interrupt hifive1 wave3 20 readyBus playing1 = .ok (m', t) ∧
      sent t = [(sample &&& 0x0FFF) ||| 0x7000] ∧
      ((sample &&& 0x0FFF) ||| 0x7000) / 4096 = 7 ∧
      ((sample &&& 0x0FFF) ||| 0x7000) % 4096 = sample % 4096 ∧
      waveReads t = [playing1.index] ∧
      writes t = [(Reg.CLINT_MTIMECMP, (20 + 3) % 2 ^ 64),
          (Reg.GPIO_OUTPUT_VAL, bic32 playing1.gpio_output_val (1 <<< hifive1.GREEN_LED_OFFSET))]
        ++ frame hifive1 ((sample &&& 0x0FFF) ||| 0x7000)
        ++ [(Reg.GPIO_OUTPUT_VAL, m'.gpio_output_val)] ∧
      m'.index = playing1.index + 1 ∧ m'.play_audio = playing1.play_audio ∧ Playing m' :=
  playing_step hifive1 wave3 20 readyBus playing1 (by decide) (by decide) (by decide) (by decide)

/-- C5. Frame atomicity of `spi_tx16`: for every 16-bit word `w` and all bus
responses on which each busy-wait leaves (reads `a` of `TXFIFO` with the full
flag set, then `x` with it clear; reads `b` with the flag set, then `y` with it
clear; reads `c` of `IP` without the transmit-watermark flag, then `z` with
it), the call returns and its register accesses are, in order: chip-select mode
:= HOLD, the reads `a, x`, TX queue := `(w >> 8) & 0xFF`, the reads `b, y`,
TX queue := `w & 0xFF`, the reads `c, z`, chip-select mode := AUTO.  So the
register writes are exactly HOLD, high byte, low byte, AUTO, no chip-select
write lies between the two enqueues, AUTO is written directly after the read
that shows the watermark flag, and `high * 256 + low = w`. -/
theorem spi_tx16_frame_atomic (P : Platform) (w : Nat) (a : List Nat) (x : Nat) (b : List Nat)
    (y : Nat) (c : List Nat) (z : Nat) (d : List Nat) (hw : w < 2 ^ 16)
    (ha : ∀ v ∈ a, v &&& P.SPI_TXFIFO_FULL ≠ 0) (hx : x &&& P.SPI_TXFIFO_FULL = 0)
    (hb : ∀ v ∈ b, v &&& P.SPI_TXFIFO_FULL ≠ 0) (hy : y &&& P.SPI_TXFIFO_FULL = 0)
    (hc : ∀ v ∈ c, v &&& P.SPI_IP_TXWM ≠ P.SPI_IP_TXWM) (hz : z &&& P.SPI_IP_TXWM = P.SPI_IP_TXWM) :
    ∃ t, spi_tx16 P w (a ++ x :: (b ++ y :: (c ++ z :: d))) = .ok (t, d) ∧
      t = [Event.write .SPI_REG_CSMODE P.SPI_CSMODE_HOLD]
          ++ (a ++ [x]).map (Event.read .SPI_REG_TXFIFO)
          ++ [Event.write .SPI_REG_TXFIFO ((w >>> 8) &&& 0xff)]
          ++ (b ++ [y]).map (Event.read .SPI_REG_TXFIFO)
          ++ [Event.write .SPI_REG_TXFIFO (w &&& 0xff)]
          ++ (c ++ [z]).map (Event.read .SPI_REG_IP)
          ++ [Event.write .SPI_REG_CSMODE P.SPI_CSMODE_AUTO] ∧
      writes t = [(Reg.SPI_REG_CSMODE, P.SPI_CSMODE_HOLD),
                  (Reg.SPI_REG_TXFIFO, (w >>> 8) &&& 0xff),
                  (Reg.SPI_REG_TXFIFO, w &&& 0xff),
                  (Reg.SPI_REG_CSMODE, P.SPI_CSMODE_AUTO)] ∧
      ((w >>> 8) &&& 0xff) * 256 + (w &&& 0xff) = w := by
  refine ⟨_, spi_tx16_trace P w a x b y c z d ha hx hb hy hc hz, rfl, ?_, ?_⟩
  · simp only [writes_append, writes_reads]
    simp [writes]
  · have h1 : w &&& 0xff = w % 256 := Nat.and_pow_two_sub_one_eq_mod w 8
    have h2 : (w >>> 8) &&& 0xff = (w >>> 8) % 256 := Nat.and_pow_two_sub_one_eq_mod _ 8
    have h3 : w >>> 8 = w / 256 := Nat.shiftRight_eq_div_pow w 8
    rw [h1, h2, h3]
    omega

/-- Witness of C5: the word `0x73FF` on a bus that is full once before the
high byte and shows the watermark on the second read of `IP`. -/
theorem spi_tx16_frame_atomic_witness :
    ∃ t, spi_tx16 hifive1 0x73FF ([2147483648] ++ 0 :: ([] ++ 1 :: ([0] ++ 1 :: [9])))
          = .ok (t, [9]) ∧
      t = [Event.write .SPI_REG_CSMODE hifive1.SPI_CSMODE_HOLD]
          ++ ([2147483648] ++ [0]).map (Event.read .SPI_REG_TXFIFO)
          ++ [Event.write .SPI_REG_TXFIFO ((0x73FF >>> 8) &&& 0xff)]
          ++ ([] ++ [1]).map (Event.read .SPI_REG_TXFIFO)
          ++ [Event.write .SPI_REG_TXFIFO (0x73FF &&& 0xff)]
          ++ ([0] ++ [1]).map (Event.read .SPI_REG_IP)
          ++ [Event.write .SPI_REG_CSMODE hifive1.SPI_CSMODE_AUTO] ∧
      writes t = [(Reg.SPI_REG_CSMODE, hifive1.SPI_CSMODE_HOLD),
                  (Reg.SPI_REG_TXFIFO, (0x73FF >>> 8) &&& 0xff),
                  (Reg.SPI_REG_TXFIFO, 0x73FF &&& 0xff),
                  (Reg.SPI_REG_CSMODE, hifive1.SPI_CSMODE_AUTO)] ∧
      ((0x73FF >>> 8) &&& 0xff) * 256 + (0x73FF &&& 0xff) = 0x73FF :=
  spi_tx16_frame_atomic hifive1 0x73FF [2147483648] 0 [] 1 [0] 1 [9] (by decide)
    (by decide) (by decide) (by simp) (by decide) (by decide) (by decide)

/-- C1, evaluated on the three-sample buffer: in state Playing with the cursor
at `SAMPLES = 3`, the tick resets the cursor and stops playback, but then still
reads `wave[0]`, passes `0x7100` to `spi_tx16` and increments the cursor: it ends
with `index = 1`, `play_audio = 0`, one word transmitted. -/
theorem exhausted_tick_transmits :
    playback (handle_m_time_interrupt hifive1 wave3 40 readyBus playing3)
      = .ok (1, 0, [0x7100]) := by
  rfl

/-- C2, evaluated on the scenario of the claim: after the trigger, the first
three ticks transmit `0x7100, 0x7200, 0x73FF` and leave the cursor at 3, still
Playing; the fourth tick transmits `0x7100` once more and ends with cursor 1,
Idle. -/
theorem end_to_end_fourth_tick_transmits :
    playback (ticks hifive1 wave3 (fourTicks.take 3) (button_0_handler hifive1 m0).1)
      = .ok (3, 1, [0x7100, 0x7200, 0x73FF]) ∧
    playback (ticks hifive1 wave3 fourTicks (button_0_handler hifive1 m0).1)
      = .ok (1, 0, [0x7100, 0x7200, 0x73FF, 0x7100]) := by
  constructor <;> rfl

/-- C6. No spurious playback: from a state with `play_audio = 0` and `index = 0`,
any number `n` of consecutive timer ticks (whatever `mtime` shows and whatever
the SPI bus answers) return with `index = 0` and `play_audio = 0`, pass no word
to `spi_tx16`, read no sample, leave the GPIO output value as it was, and write
no register other than the timer compare register, which is written `n` times
(the rearm of each tick). -/
theorem no_spurious_playback (P : Platform) (wave : List Nat) (n : Nat)
    (inputs : List TickInput) (m : Machine) (hn : inputs.length = n) (hidle : Idle m)
    (h0 : m.index = 0) :
    ∃ m' t, ticks P wave inputs m = .ok (m', t) ∧ m'.index = 0 ∧ Idle m' ∧
      sent t = [] ∧ waveReads t = [] ∧ m'.gpio_output_val = m.gpio_output_val ∧
      (∀ rv ∈ writes t, rv.1 = Reg.CLINT_MTIMECMP) ∧ (writes t).length = n := by
  obtain ⟨m', t, ht, hidx, hpa, hgpio, hsent, hreads, hwr, hcount⟩ :=
    idle_ticks P wave inputs m hidle
  exact ⟨m', t, ht, by rw [hidx, h0], hpa, hsent, hreads, hgpio, hwr, by rw [hcount, hn]⟩

/-- Witness of C6: three ticks from the idle machine `m0`. -/
theorem no_spurious_playback_witness :
    ∃ m' t, ticks hifive1 wave3 threeQuietTicks m0 = .ok (m', t) ∧ m'.index = 0 ∧ Idle m' ∧
      sent t = [] ∧ waveReads t = [] ∧ m'.gpio_output_val = m0.gpio_output_val ∧
      (∀ rv ∈ writes t, rv.1 = Reg.CLINT_MTIMECMP) ∧ (writes t).length = 3 :=
  no_spurious_playback hifive1 wave3 3 threeQuietTicks m0 (by decide) (by decide) (by decide)

/-- C7. Idempotent trigger: in every state `button_0_handler` leaves `index`
unchanged and ends with `play_audio = 1`, that is Playing; when the state is
already Playing, cursor and playback state are unchanged (and `play_audio`
itself when it was 1); a second invocation leaves `play_audio` and `index` as
the first one left them. -/
theorem trigger_idempotent (P : Platform) (m : Machine) :
    (button_0_handler P m).1.index = m.index ∧
    (button_0_handler P m).1.play_audio = 1 ∧
    Playing (button_0_handler P m).1 ∧
    (Playing m → (Playing (button_0_handler P m).1 ↔ Playing m) ∧
      (button_0_handler P m).1.index = m.index) ∧
    (m.play_audio = 1 → (button_0_handler P m).1.play_audio = m.play_audio) ∧
    (button_0_handler P (button_0_handler P m).1).1.play_audio
      = (button_0_handler P m).1.play_audio ∧
    (button_0_handler P (button_0_handler P m).1).1.index = (button_0_handler P m).1.index := by
  have hp : Playing (button_0_handler P m).1 := by
    show (1 : Int) ≠ 0
    decide
  refine ⟨rfl, rfl, hp, ?_, ?_, rfl, rfl⟩
  · intro h
    exact ⟨⟨fun _ => h, fun _ => hp⟩, rfl⟩
  · intro h
    rw [h]
    rfl

/-- Witness of C7: the trigger on the idle machine `m0`. -/
theorem trigger_idempotent_witness :
    (button_0_handler hifive1 m0).1.index = m0.index ∧
    (button_0_handler hifive1 m0).1.play_audio = 1 ∧
    Playing (button_0_handler hifive1 m0).1 ∧
    (Playing m0 → (Playing (button_0_handler hifive1 m0).1 ↔ Playing m0) ∧
      (button_0_handler hifive1 m0).1.index = m0.index) ∧
    (m0.play_audio = 1 → (button_0_handler hifive1 m0).1.play_audio = m0.play_audio) ∧
    (button_0_handler hifive1 (button_0_handler hifive1 m0).1).1.play_audio
      = (button_0_handler hifive1 m0).1.play_audio ∧
    (button_0_handler hifive1 (button_0_handler hifive1 m0).1).1.index
      = (button_0_handler hifive1 m0).1.index :=
  trigger_idempotent hifive1 m0

/-- C4. Out-of-range dispatch is fatal: for every claimed source and every
state, `handle_m_ext_interrupt` leaves through `exit` if and only if the source
is 0 or at least `PLIC_NUM_INTERRUPTS`; on that path the events are the claim
followed by `exit(1 + int_num)`, no handler of the table is called, no
completion is signalled and the state is untouched; in particular this is what
happens for the sources 0 and `PLIC_NUM_INTERRUPTS`. -/
theorem out_of_range_dispatch_fatal (P : Platform) (src : Nat) (m : Machine) :
    ((∃ status m' t, handle_m_ext_interrupt P src m = .ok (Ctl.exited status, m', t))
      ↔ (src = 0 ∨ P.PLIC_NUM_INTERRUPTS ≤ src)) ∧
    ((src = 0 ∨ P.PLIC_NUM_INTERRUPTS ≤ src) →
      ∃ t, handle_m_ext_interrupt P src m = .ok (Ctl.exited ((1 + src) % 2 ^ 32), m, t) ∧
        t = [Event.PLIC_claim_interrupt src, Event.exit ((1 + src) % 2 ^ 32)] ∧
        calls t = []) ∧
    handle_m_ext_interrupt P 0 m
      = .ok (Ctl.exited 1, m, [Event.PLIC_claim_interrupt 0, Event.exit 1]) ∧
    handle_m_ext_interrupt P P.PLIC_NUM_INTERRUPTS m
      = .ok (Ctl.exited ((1 + P.PLIC_NUM_INTERRUPTS) % 2 ^ 32), m,
          [Event.PLIC_claim_interrupt P.PLIC_NUM_INTERRUPTS,
           Event.exit ((1 + P.PLIC_NUM_INTERRUPTS) % 2 ^ 32)]) := by
  have hfatal : ∀ s, (s = 0 ∨ P.PLIC_NUM_INTERRUPTS ≤ s) →
      handle_m_ext_interrupt P s m = .ok (Ctl.exited ((1 + s) % 2 ^ 32), m,
        [Event.PLIC_claim_interrupt s, Event.exit ((1 + s) % 2 ^ 32)]) := by
    intro s hs
    have hg : ¬ (s ≥ 1 ∧ s < P.PLIC_NUM_INTERRUPTS) := by omega
    simp [handle_m_ext_interrupt, hg, pure, Except.pure]
  refine ⟨⟨?_, ?_⟩, ?_, ?_, ?_⟩
  · rintro ⟨status, m', t, h⟩
    by_contra hc
    have hg : src ≥ 1 ∧ src < P.PLIC_NUM_INTERRUPTS := by omega
    simp only [handle_m_ext_interrupt, hg, and_self, if_true, bind, Except.bind, pure,
      Except.pure] at h
    split at h <;> simp at h
  · intro hs
    exact ⟨_, _, _, hfatal src hs⟩
  · intro hs
    exact ⟨_, hfatal src hs, rfl, rfl⟩
  · exact hfatal 0 (Or.inl rfl)
  · exact hfatal _ (Or.inr (Nat.le_refl _))

/-- Witness of C4 on the HiFive1 table of 52 sources, claimed source 52. -/
theorem out_of_range_dispatch_fatal_witness :
    handle_m_ext_interrupt hifive1 hifive1.PLIC_NUM_INTERRUPTS ready
      = .ok (Ctl.exited ((1 + hifive1.PLIC_NUM_INTERRUPTS) % 2 ^ 32), ready,
          [Event.PLIC_claim_interrupt hifive1.PLIC_NUM_INTERRUPTS,
           Event.exit ((1 + hifive1.PLIC_NUM_INTERRUPTS) % 2 ^ 32)]) :=
  (out_of_range_dispatch_fatal hifive1 52 ready).2.2.2

/-- C8. Valid dispatch order: let the handler table be the one `initializtion`
builds (on an array of `PLIC_NUM_INTERRUPTS` entries, the button source lying
inside it).  For every claimed source with `1 ≤ int_num < PLIC_NUM_INTERRUPTS`
the table entry is `button_0_handler` for the button source and
`no_interrupt_handler` for every other one, and `handle_m_ext_interrupt` returns
(no `exit`) after exactly: the claim, one call of that entry with the events of
its body, the completion for the same source.  For a source other than the
button the call does nothing. -/
theorem valid_dispatch_order (P : Platform) (now : Nat) (mb m : Machine) (src : Nat)
    (hlen : mb.g_ext_interrupt_handlers.length = P.PLIC_NUM_INTERRUPTS)
    (hbutton : P.INT_DEVICE_BUTTON_0 < P.PLIC_NUM_INTERRUPTS)
    (htable : m.g_ext_interrupt_handlers = (initializtion P now mb).1.g_ext_interrupt_handlers)
    (h1 : 1 ≤ src) (h2 : src < P.PLIC_NUM_INTERRUPTS) :
    ∃ h m' r, m.g_ext_interrupt_handlers[src]? = some h ∧
      h = (if src = P.INT_DEVICE_BUTTON_0 then Handler.button_0_handler
           else Handler.no_interrupt_handler) ∧
      call_handler P h m = .ok (m', r) ∧
      handle_m_ext_interrupt P src m
        = .ok (Ctl.returned, m',
            [Event.PLIC_claim_interrupt src, Event.call h] ++ r
              ++ [Event.PLIC_complete_interrupt src]) ∧
      calls ([Event.PLIC_claim_interrupt src, Event.call h] ++ r
              ++ [Event.PLIC_complete_interrupt src]) = [h] ∧
      (src ≠ P.INT_DEVICE_BUTTON_0 → m' = m ∧ r = []) ∧
      (src = P.INT_DEVICE_BUTTON_0 → (m', r) = button_0_handler P m) := by
  have _ := hbutton
  have hentry := initializtion_table P now mb src hlen h2
  rw [← htable] at hentry
  have hg : src ≥ 1 ∧ src < P.PLIC_NUM_INTERRUPTS := ⟨h1, h2⟩
  by_cases hb : src = P.INT_DEVICE_BUTTON_0
  · rw [if_pos hb] at hentry
    refine ⟨Handler.button_0_handler, (button_0_handler P m).1, (button_0_handler P m).2,
      hentry, by rw [if_pos hb], rfl, ?_, ?_, fun h => absurd hb h, fun _ => rfl⟩
    · simp [handle_m_ext_interrupt, hg, hentry, call_handler, bind, Except.bind, pure,
        Except.pure]
    · simp [calls, button_0_handler]
  · rw [if_neg hb] at hentry
    refine ⟨Handler.no_interrupt_handler, m, [], hentry, by rw [if_neg hb], rfl, ?_, ?_,
      fun _ => ⟨rfl, rfl⟩, fun h => absurd h hb⟩
    · simp [handle_m_ext_interrupt, hg, hentry, call_handler, bind, Except.bind, pure,
        Except.pure]
    · simp [calls]

/-- Witness of C8: the button source 23 of the HiFive1, after bring-up. -/
theorem valid_dispatch_order_witness :
    ∃ h m' r, ready.g_ext_interrupt_handlers[23]? = some h ∧
      h = (if 23 = hifive1.INT_DEVICE_BUTTON_0 then Handler.button_0_handler
           else Handler.no_interrupt_handler) ∧
      call_handler hifive1 h ready = .ok (m', r) ∧
      handle_m_ext_interrupt hifive1 23 ready
        = .ok (Ctl.returned, m',
            [Event.PLIC_claim_interrupt 23, Event.call h] ++ r
              ++ [Event.PLIC_complete_interrupt 23]) ∧
      calls ([Event.PLIC_claim_interrupt 23, Event.call h] ++ r
              ++ [Event.PLIC_complete_interrupt 23]) = [h] ∧
      (23 ≠ hifive1.INT_DEVICE_BUTTON_0 → m' = ready ∧ r = []) ∧
      (23 = hifive1.INT_DEVICE_BUTTON_0 → (m', r) = button_0_handler hifive1 ready) :=
  valid_dispatch_order hifive1 5 (boot hifive1 m0) ready 23 (by decide) (by decide) rfl
    (by decide) (by decide)

/-- C9. Buffer reads stay in bounds: provided `SAMPLES ≥ 1`, in every state,
whatever `play_audio` and `index` are, a timer tick never reads `wave` out of
bounds, it returns whenever the busy-waits of `spi_tx16` leave, and every index
at which it read `wave` is below `SAMPLES`.  In every state the program can be
in, `index ≤ SAMPLES` holds, the tick ends with `index ≤ SAMPLES`, and
`button_0_handler` leaves `index ≤ SAMPLES`; both lead to states the program can
be in, so `index ≤ SAMPLES` is preserved by every tick and every trigger. -/
theorem buffer_reads_in_bounds (P : Platform) (wave : List Nat) (now : Nat) (bus : List Nat)
    (m : Machine) (h1 : 1 ≤ SAMPLES wave) :
    (∀ i, handle_m_time_interrupt P wave now bus m ≠ .error (Fault.wave_out_of_bounds i)) ∧
    (busExits P bus = true → ∃ m' t, handle_m_time_interrupt P wave now bus m = .ok (m', t)) ∧
    (∀ m' t, handle_m_time_interrupt P wave now bus m = .ok (m', t) →
      ∀ i ∈ waveReads t, i < SAMPLES wave) ∧
    (Reachable P wave m →
      m.index ≤ SAMPLES wave ∧
      (∀ m' t, handle_m_time_interrupt P wave now bus m = .ok (m', t) →
        m'.index ≤ SAMPLES wave ∧ Reachable P wave m') ∧
      (button_0_handler P m).1.index ≤ SAMPLES wave ∧
      Reachable P wave (button_0_handler P m).1) := by
  obtain ⟨hfault, hret, hok, _, _⟩ := tick_reads_any_state P wave now bus m h1
  refine ⟨hfault, hret, fun m' t h => (hok m' t h).1, fun hr => ?_⟩
  have hinv := reachable_index_le P wave h1 m hr
  refine ⟨hinv, fun m' t h => ⟨?_, Reachable.after_tick now bus m m' t hr h⟩, hinv,
    Reachable.after_trigger m hr⟩
  exact (hok m' t h).2 (Or.inr hinv)

/-- Witness of C9: the state three ticks after bring-up on the three-sample
buffer, Playing with the cursor at `SAMPLES`; it is a state the program can be
in, and the tick taken there reads `wave[0]` and ends with `index = 1`. -/
theorem buffer_reads_in_bounds_witness :
    Reachable hifive1 wave3 afterThreeTicks ∧ afterThreeTicks.index = 3 ∧
    Playing afterThreeTicks ∧
    (∀ i, handle_m_time_interrupt hifive1 wave3 40 readyBus afterThreeTicks
        ≠ .error (Fault.wave_out_of_bounds i)) ∧
    (∃ m' t, handle_m_time_interrupt hifive1 wave3 40 readyBus afterThreeTicks = .ok (m', t)) ∧
    (∀ m' t, handle_m_time_interrupt hifive1 wave3 40 readyBus afterThreeTicks = .ok (m', t) →
      ∀ i ∈ waveReads t, i < SAMPLES wave3) ∧
    afterThreeTicks.index ≤ SAMPLES wave3 ∧
    (∀ m' t, handle_m_time_interrupt hifive1 wave3 40 readyBus afterThreeTicks = .ok (m', t) →
      m'.index ≤ SAMPLES wave3 ∧ Reachable hifive1 wave3 m') ∧
    (button_0_handler hifive1 afterThreeTicks).1.index ≤ SAMPLES wave3 ∧
    Reachable hifive1 wave3 (button_0_handler hifive1 afterThreeTicks).1 :=
  have hreach : Reachable hifive1 wave3 afterThreeTicks :=
    reachable_ticks hifive1 wave3 (fourTicks.take 3) ready afterThreeTicks _
      (Reachable.after_initializtion 5 _ (Reachable.at_boot m0)) rfl
  have h := buffer_reads_in_bounds hifive1 wave3 40 readyBus afterThreeTicks (by decide)
  ⟨hreach, rfl, by decide, h.1, h.2.1 (by decide), h.2.2.1, (h.2.2.2 hreach).1,
    (h.2.2.2 hreach).2.1, (h.2.2.2 hreach).2.2.1, (h.2.2.2 hreach).2.2.2⟩

/-- C10. Playback at boot: the initialisers give `play_audio = 1` and
`index = 0`, so the boot state is Playing, and `initializtion` changes neither.
With `SAMPLES ≥ 1`, the first timer tick, taken in the boot state or after
`initializtion`, with no `button_0_handler` call before it, passes
`(wave[0] & 0x0FFF) | 0x7000` to `spi_tx16` and leaves `index = 1` (on bus
responses on which the busy-waits of `spi_tx16` leave). -/
theorem playback_at_boot (P : Platform) (wave : List Nat) (hw : Machine) (now0 now : Nat)
    (bus : List Nat) (m : Machine)
    (hm : m = boot P hw ∨ m = (initializtion P now0 (boot P hw)).1)
    (h1 : 1 ≤ SAMPLES wave) (hbus : busExits P bus = true) :
    (boot P hw).play_audio = 1 ∧ (boot P hw).index = 0 ∧ Playing m ∧ m.index = 0 ∧
    ∃ sample m' t, wave[0]? = some sample ∧
      handle_m_time_interrupt P wave now bus m = .ok (m', t) ∧
      sent t = [(sample &&& 0x0FFF) ||| 0x7000] ∧ waveReads t = [0] ∧ calls t = [] ∧
      m'.index = 1 := by
  have hlen : 0 < wave.length := h1
  have hpa : m.play_audio = 1 := by rcases hm with h | h <;> rw [h] <;> rfl
  have hidx : m.index = 0 := by rcases hm with h | h <;> rw [h] <;> rfl
  have hp : Playing m := by
    show m.play_audio ≠ 0
    rw [hpa]
    decide
  refine ⟨rfl, rfl, hp, hidx, ?_⟩
  obtain ⟨r, rest, hr, _, hsr, hrr, hcr⟩ := spi_tx16_of_busExits P (dacWord (wave[0])) bus hbus
  have hs : wave[m.index]? = some (wave[0]) := by
    rw [hidx]
    exact List.getElem?_eq_getElem hlen
  have ht := tick_inrange P wave now bus m _ hp (by rw [hidx]; exact h1) hs
  rw [hr] at ht
  refine ⟨wave[0], _, _, List.getElem?_eq_getElem hlen, ht, ?_, ?_, ?_, ?_⟩
  · simp only [sent_append, hsr]
    simp [sent, dacWord]
  · simp only [waveReads_append, hrr]
    simp [waveReads, hidx]
  · simp only [calls_append, hcr]
    simp [calls]
  · simp [hidx]

/-- Witness of C10: the first tick after bring-up on the three-sample buffer. -/
theorem playback_at_boot_witness :
    (boot hifive1 m0).play_audio = 1 ∧ (boot hifive1 m0).index = 0 ∧ Playing ready ∧
    ready.index = 0 ∧
    ∃ sample m' t, wave3[0]? = some sample ∧
      handle_m_time_interrupt hifive1 wave3 10 readyBus ready = .ok (m', t) ∧
      sent t = [(sample &&& 0x0FFF) ||| 0x7000] ∧ waveReads t = [0] ∧ calls t = [] ∧
      m'.index = 1 :=
  playback_at_boot hifive1 wave3 m0 5 10 readyBus ready (Or.inr rfl) (by decide) (by decide)

end Audio
